import Mathlib

/-
Verification of the hierarchical/identity multi-select selection engine:
a shallow embedding of the selection, serialization, deduplication and
overlay-placement code of the repository, with theorems settling the
specified properties against it.

Strings of the host language are modelled as lists of characters ( Str ),
so that splitting, trimming and the token grammar can be stated and
evaluated structurally.
-/

abbrev Str := List Char

/-- The whitespace test used by the trim operation of the host language:
space, tab, line terminators, and the Unicode space separators. -/
def jsIsWhitespace (c : Char) : Bool :=
  c == ' ' || c == '\t' || c == '\n' || c == '\u000B' || c == '\u000C' ||
  c == '\r' || c == '\u00A0' || c == '\u1680' ||
  (0x2000 ≤ c.toNat && c.toNat ≤ 0x200A) ||
  c == '\u2028' || c == '\u2029' || c == '\u202F' || c == '\u205F' ||
  c == '\u3000' || c == '\uFEFF'

/-- Embeds the trim method of host strings: removes leading and trailing
whitespace. -/
def jsTrim (s : Str) : Str :=
  ((s.dropWhile jsIsWhitespace).reverse.dropWhile jsIsWhitespace).reverse

/-- From src/src/CascadingMultiSelect.ts, loadCurrentValue (lines 99-100 of
the first control and lines 932-935 of the second): the stored field value
is split on the configured separator, each token is trimmed, and empty
tokens are dropped. No other filtering happens there: the tokens are not
compared against the configured tree. -/
def loadSelectedValues (currentValue : Str) (sep : Char) : List Str :=
  ((currentValue.splitOn sep).map jsTrim).filter (fun v => !v.isEmpty)

/-- From src/src/CascadingMultiSelect.ts, updateField (line 241) and
updateFieldValue (line 954): the selected values are joined with the
configured separator. -/
def encodeSelection (sel : List Str) (sep : Char) : Str :=
  List.intercalate [sep] sel

/-- From src/src/CascadingMultiSelect.ts (lines 4-10): a hierarchical item
has an id, a display name and a list of children; a missing children array
is modelled as the empty list. -/
inductive HItem : Type where
  | node : Str → Str → List HItem → HItem

def HItem.itemId : HItem → Str
  | .node i _ _ => i

def HItem.itemName : HItem → Str
  | .node _ n _ => n

def HItem.children : HItem → List HItem
  | .node _ _ cs => cs

mutual

/-- Depth-first id lookup on one node, as in getItemNameById and
getItemName of src/src/CascadingMultiSelect.ts (lines 297-311, 1052-1065):
the node itself first, then its children. -/
def findItemNode (x : Str) : HItem → Option HItem
  | .node i n cs => if i == x then some (.node i n cs) else findItemIn x cs

/-- Depth-first id lookup on a forest, first match wins. -/
def findItemIn (x : Str) : List HItem → Option HItem
  | [] => none
  | c :: cs =>
    match findItemNode x c with
    | some r => some r
    | none => findItemIn x cs

end

/-- Membership of an id in the tree, derived from the same traversal. -/
def treeHasId (tree : List HItem) (x : Str) : Bool :=
  (findItemIn x tree).isSome

/-- From src/src/CascadingMultiSelect.ts (lines 181 and 988): an item is
selectable iff parent-select mode is enabled or it has no children. -/
def isSelectable (parentSelectMode : Bool) (item : HItem) : Bool :=
  parentSelectMode || item.children.isEmpty

/-- Adding to the selected set of the host language: appends the value if
absent, keeps the set unchanged otherwise (insertion order preserved). -/
def setAdd (s : List Str) (x : Str) : List Str :=
  if x ∈ s then s else s ++ [x]

/-- Removing from the selected set of the host language. -/
def setDelete (s : List Str) (x : Str) : List Str :=
  s.filter (fun v => v ≠ x)

/-- From src/src/CascadingMultiSelect.ts, toggleSelection (lines 220-235):
if the item is currently selected its id is removed from the selected set,
otherwise its id is added. The item.selected flag mirrors membership of
item.id in the selected set. -/
def toggleSelection (selected : List Str) (item : HItem) : List Str :=
  if item.itemId ∈ selected then setDelete selected item.itemId
  else setAdd selected item.itemId

/-- The user-facing toggle: renderTree (lines 180-199) and renderTreeItems
(lines 988-1004) attach a checkbox and click handler only to selectable
items, so a toggle request for an id reaches toggleSelection only when the
item found under that id is selectable; otherwise nothing happens. An id
absent from the tree has no rendered element at all. -/
def toggleSelect (mode : Bool) (tree : List HItem) (selected : List Str)
    (x : Str) : List Str :=
  match findItemIn x tree with
  | none => selected
  | some item =>
    if isSelectable mode item then toggleSelection selected item else selected

/-- Whether the item found under an id is a container (has children). -/
def isContainerId (tree : List HItem) (x : Str) : Bool :=
  match findItemIn x tree with
  | some item => !item.children.isEmpty
  | none => false

/-- The two-leaf tree of the stale-drop scenario: ids a and b only. -/
def staleTree : List HItem :=
  [HItem.node "a".toList "A".toList [], HItem.node "b".toList "B".toList []]

/-- The tree of the leaf-only selection scenario:
one container cat with leaves x and y. -/
def catTree : List HItem :=
  [HItem.node "cat".toList "cat".toList
    [HItem.node "x".toList "x".toList [], HItem.node "y".toList "y".toList []]]

/-- A one-leaf tree whose single id contains the separator character. -/
def sepIdTree : List HItem :=
  [HItem.node "a;b".toList "a b".toList []]

/-- From src/src/IdentityMultiSelect.ts (lines 4-11): an identity entity.
The optional fields that play no role in the verified logic are omitted;
uniqueName is always a string in the source and an empty string models a
falsy (unavailable) unique name. -/
structure Identity : Type where
  entityId : Str
  displayName : Str
  uniqueName : Str
  entityType : Str
deriving DecidableEq

/-- Embeds the case-lowering method of host strings (the identities of
interest are plain ASCII strings, for which the two agree). -/
def jsToLower (s : Str) : Str := s.map Char.toLower

/-- The duplicate test of addIdentityIfNotExists,
src/src/IdentityMultiSelect.ts lines 1244-1249, for one existing entry:
equal id, or equal uniqueName, or case-insensitively equal uniqueName when
both are truthy (non-empty), or equal displayName paired with the
case-insensitive comparison of the same displayNames. -/
def isDuplicatePair (i c : Identity) : Bool :=
  i.entityId == c.entityId ||
  i.uniqueName == c.uniqueName ||
  (!i.uniqueName.isEmpty && !c.uniqueName.isEmpty &&
    jsToLower i.uniqueName == jsToLower c.uniqueName) ||
  (i.displayName == c.displayName &&
    jsToLower i.displayName == jsToLower c.displayName)

/-- The some-existing-entry duplicate test of addIdentityIfNotExists. -/
def isDuplicate (sel : List Identity) (c : Identity) : Bool :=
  sel.any (fun i => isDuplicatePair i c)

/-- Modelled from the claim wording for comparison (refinement check):
duplicate iff an existing entry has an equal id, or a case-insensitively
equal uniqueName, or a case-insensitively equal displayName when neither
side has a uniqueName available. -/
def claimIsDuplicatePair (i c : Identity) : Bool :=
  i.entityId == c.entityId ||
  (!i.uniqueName.isEmpty && !c.uniqueName.isEmpty &&
    jsToLower i.uniqueName == jsToLower c.uniqueName) ||
  (i.uniqueName.isEmpty && c.uniqueName.isEmpty &&
    jsToLower i.displayName == jsToLower c.displayName)

/-- The claim-side duplicate test over a whole selection. -/
def claimIsDuplicate (sel : List Identity) (c : Identity) : Bool :=
  sel.any (fun i => claimIsDuplicatePair i c)

/-- The numeric maxSelections value: parseInt yields either an integer or
NaN, modelled as Option Int with none for NaN. -/
abbrev MaxSelections := Option Int

/-- The comparison selectedIdentities.length >= this.maxSelections of
src/src/IdentityMultiSelect.ts line 1256: any numeric comparison with NaN
( none ) is false. -/
def lengthGeMax (n : Nat) (maxSel : MaxSelections) : Bool :=
  match maxSel with
  | some m => (n : Int) ≥ m
  | none => false

/-- Outcome of one addIdentityIfNotExists call: the returned boolean, the
selection afterwards, and whether the maximum-selections message was
surfaced via showMessage. -/
structure AddResult : Type where
  result : Bool
  selected : List Identity
  capacityMessageShown : Bool
deriving DecidableEq

/-- From src/src/IdentityMultiSelect.ts, addIdentityIfNotExists
(lines 1242-1265): a duplicate is rejected first (no message), then the
capacity check rejects with the maximum-selections message, else the
identity is appended and true is returned. -/
def addIdentityIfNotExists (sel : List Identity) (maxSel : MaxSelections)
    (c : Identity) : AddResult :=
  if isDuplicate sel c then ⟨false, sel, false⟩
  else if lengthGeMax sel.length maxSel then ⟨false, sel, true⟩
  else ⟨true, sel ++ [c], false⟩

/-- Decimal digit value of a character, none for a non-digit. -/
def decDigitVal (c : Char) : Option Nat :=
  if '0' ≤ c && c ≤ '9' then some (c.toNat - 48) else none

/-- Hexadecimal digit value of a character, none for a non-digit. -/
def hexDigitVal (c : Char) : Option Nat :=
  if '0' ≤ c && c ≤ '9' then some (c.toNat - 48)
  else if 'a' ≤ c && c ≤ 'f' then some (c.toNat - 87)
  else if 'A' ≤ c && c ≤ 'F' then some (c.toNat - 55)
  else none

/-- Embeds parseInt of the host language with the radix argument omitted:
skip leading whitespace, read an optional sign, detect a 0x or 0X prefix
(hexadecimal) and otherwise parse the longest run of leading decimal
digits; the result is NaN ( none ) when that run is empty. -/
def jsParseInt (s : String) : Option Int :=
  let l := s.toList.dropWhile jsIsWhitespace
  let signed : Bool × Str :=
    match l with
    | '-' :: r => (true, r)
    | '+' :: r => (false, r)
    | _ => (false, l)
  let radixed : (Char → Option Nat) × Str :=
    match signed.2 with
    | '0' :: 'x' :: r => (hexDigitVal, r)
    | '0' :: 'X' :: r => (hexDigitVal, r)
    | _ => (decDigitVal, signed.2)
  let base : Nat := match signed.2 with
    | '0' :: 'x' :: _ => 16
    | '0' :: 'X' :: _ => 16
    | _ => 10
  let ds := radixed.2.takeWhile (fun c => (radixed.1 c).isSome)
  if ds.isEmpty then none
  else
    let v : Nat := ds.foldl (fun a c => a * base + ((radixed.1 c).getD 0)) 0
    some (if signed.1 then -(v : Int) else (v : Int))

/-- From src/src/IdentityMultiSelect.ts line 145: this.maxSelections is
parseInt of the configured input, with a falsy input (absent or empty)
replaced by the string 10. -/
def parsedMaxSelections (input : Option String) : MaxSelections :=
  jsParseInt (match input with
    | none => "10"
    | some s => if s = "" then "10" else s)

/-- From src/src/IdentityMultiSelect.ts line 147: the effective separator
is the comma exactly for the configured inputs comma and the comma
character itself; everything else, absent input included, yields the
semicolon. -/
def effectiveSeparator (sepInput : Option String) : String :=
  if sepInput == some "comma" || sepInput == some "," then "," else ";"

/-- The character class of the regex dot of the host language: everything
except the four line terminators. -/
def jsDotChar (c : Char) : Bool :=
  !(c == '\n' || c == '\r' || c == '\u2028' || c == '\u2029')

/-- Matches the tail grammar of the bracketed-identity regex against the
whole remaining input: optional whitespace, an opening angle bracket, a
non-empty lazy group of dot characters and a closing angle bracket that
must be the final character. Returns the second capture group. Because
the closing bracket is anchored at the end of the input, the lazy group
is forced to span everything between the opening bracket and that final
character. -/
def tryAngleTail (rest : Str) : Option Str :=
  match rest.dropWhile jsIsWhitespace with
  | '<' :: r2 =>
    match r2.getLast? with
    | some '>' =>
      if !r2.dropLast.isEmpty && r2.dropLast.all jsDotChar then
        some r2.dropLast
      else none
    | _ => none
  | _ => none

/-- Backtracking search of the bracketed-identity regex: the first capture
group is lazy, so the shortest non-empty prefix of dot characters whose
remainder matches the tail grammar wins; a non-dot character ends the
search with no match. The accumulator holds the reversed candidate for
the first group. -/
def findAngleMatch : Str → Str → Option (Str × Str)
  | _, [] => none
  | acc, c :: rest =>
    if jsDotChar c then
      match tryAngleTail rest with
      | some b => some ((c :: acc).reverse, b)
      | none => findAngleMatch (c :: acc) rest
    else none

/-- The match of the bracketed-identity regex of
src/src/IdentityMultiSelect.ts line 339 against a whole token: capture
groups one and two on success. -/
def matchAngles (s : Str) : Option (Str × Str) :=
  findAngleMatch [] s

/-- From src/src/IdentityMultiSelect.ts, parseIdentityString
(lines 337-367): a token matching the bracketed grammar yields the two
trimmed capture groups as displayName and uniqueName with the raw second
group as id; otherwise a token containing the at sign yields the part of
the token before the first at sign as displayName and the token itself as
id and uniqueName; any other token is used for all three fields. The
source never returns null. -/
def parseIdentityString (s : Str) : Identity :=
  match matchAngles s with
  | some (g1, g2) =>
    ⟨g2, jsTrim g1, jsTrim g2, "User".toList⟩
  | none =>
    if s.contains '@' then
      ⟨s, (s.splitOn '@').headI, s, "User".toList⟩
    else
      ⟨s, s, s, "User".toList⟩

/-- The trigger rectangle handed to the overlay placement computation. -/
structure TriggerRect : Type where
  top : Int
  bottom : Int
  left : Int
  right : Int
deriving DecidableEq

/-- From src/src/CascadingMultiSelect.ts line 1217: the space below the
trigger, with a four-pixel margin under the trigger bottom. -/
def spaceBelow (r : TriggerRect) (viewportHeight : Int) : Int :=
  viewportHeight - (r.bottom + 4)

/-- From src/src/CascadingMultiSelect.ts line 1218: the space above the
trigger, with a ten-pixel margin above the viewport top. -/
def spaceAbove (r : TriggerRect) : Int :=
  r.top - 10

/-- From src/src/CascadingMultiSelect.ts line 1221: the panel goes above
the trigger exactly when the space above is larger than the space below
and exceeds fifty pixels. -/
def useAbovePositioning (r : TriggerRect) (viewportHeight : Int) : Bool :=
  spaceAbove r > spaceBelow r viewportHeight && spaceAbove r > 50

/-- From src/src/CascadingMultiSelect.ts line 1222: the chosen vertical
space. -/
def availableSpace (r : TriggerRect) (viewportHeight : Int) : Int :=
  if useAbovePositioning r viewportHeight then spaceAbove r
  else spaceBelow r viewportHeight

/-- From src/src/CascadingMultiSelect.ts line 1225: the panel maximum
height, the chosen space minus fifteen clamped between the floor of
eighty and the ceiling of three hundred. -/
def popupMaxHeight (r : TriggerRect) (viewportHeight : Int) : Int :=
  max 80 (min 300 (availableSpace r viewportHeight - 15))

/-- The concrete trigger rectangle of the placement scenario. -/
def scenarioRect : TriggerRect := ⟨500, 520, 10, 110⟩

/-- The load notification sent to the host at the end of initialization. -/
inductive LoadSignal : Type where
  | succeeded
  | failed
deriving DecidableEq

/-- The throwing behaviour of the external steps of the SDK-based control
initialization, src/src/CascadingMultiSelect.ts lines 39-90: whether the
SDK init and ready handshake resolves, whether the work item form service
is obtained, whether the configured tree JSON parses, and whether the
stored field value read resolves. -/
structure SdkEnv : Type where
  initOk : Bool
  serviceOk : Bool
  jsonOk : Bool
  fieldOk : Bool
deriving DecidableEq

/-- Outcome of the SDK-based control initialization: the notification sent
to the host, whether render ran, and whether the tree data fell back to
the empty list after a JSON parse failure. -/
structure SdkInitOutcome : Type where
  signal : LoadSignal
  rendered : Bool
  dataFallback : Bool
deriving DecidableEq

/-- Control flow of initialize in src/src/CascadingMultiSelect.ts
(lines 39-90): a JSON parse failure is caught at lines 70-74 and replaced
by the empty tree, a field value read failure is caught inside
loadCurrentValue (lines 107-110), and the remaining body then renders and
notifies success; a rejection of the SDK handshake or of the service
acquisition reaches the outer catch, which notifies load failure
(line 88) without rendering. -/
def initializeSdkControl (env : SdkEnv) : SdkInitOutcome :=
  if env.initOk && env.serviceOk then
    ⟨LoadSignal.succeeded, true, !env.jsonOk⟩
  else
    ⟨LoadSignal.failed, false, false⟩

/-- The external steps of the identity control initialization,
src/src/IdentityMultiSelect.ts lines 63-100: whether the VSS host object
exists, whether its ready handshake resolves, whether the work item form
service is obtained, and whether the stored field value read resolves. -/
structure IdentityEnv : Type where
  vssPresent : Bool
  vssReadyOk : Bool
  serviceOk : Bool
  fieldOk : Bool
deriving DecidableEq

/-- Outcome of the identity control initialization: whether the try block
ran to completion, and the notification sent from the finally block
( none when the VSS host object is absent, so there is no host to
notify). -/
structure IdentityInitOutcome : Type where
  isInitialized : Bool
  signal : Option LoadSignal
deriving DecidableEq

/-- Control flow of initializeControl in src/src/IdentityMultiSelect.ts
(lines 63-100): every step after initializeVSS catches its own errors
(parseConfiguration line 165, initializeWorkItemService line 211,
loadFieldValue line 302, setupUI line 380), so only a rejection of
initializeVSS aborts the try block; the finally block always runs and
notifies load success whenever the VSS host object exists. -/
def initializeIdentityControl (env : IdentityEnv) : IdentityInitOutcome :=
  ⟨env.vssPresent && env.vssReadyOk,
   if env.vssPresent then some LoadSignal.succeeded else none⟩

/-- A concrete identity with a lower-case email. -/
def johnLower : Identity := parseIdentityString "john@a.com".toList

/-- The same email in upper case. -/
def johnUpper : Identity := parseIdentityString "JOHN@A.COM".toList

/-- An existing entry with display name John Smith and its own email. -/
def dupExisting : Identity :=
  ⟨"id-1".toList, "John Smith".toList, "john.smith@a.com".toList,
   "User".toList⟩

/-- A different person with the same display name and a different email. -/
def dupCandidate : Identity :=
  ⟨"id-2".toList, "John Smith".toList, "j.smith@b.com".toList,
   "User".toList⟩

/-- A non-empty check on a character list, phrased for rewriting. -/
theorem str_not_isEmpty_iff (s : Str) : (!s.isEmpty) = true ↔ s ≠ [] := by
  cases s <;> simp

mutual

/-- An item found under an id carries that id. -/
theorem findItemNode_id : ∀ (x : Str) (it : HItem) (r : HItem),
    findItemNode x it = some r → r.itemId = x
  | x, .node i n cs, r, h => by
    unfold findItemNode at h
    by_cases hix : (i == x) = true
    · rw [if_pos hix] at h
      cases h
      simpa [HItem.itemId] using hix
    · rw [if_neg hix] at h
      exact findItemIn_id x cs r h

/-- An item found in a forest under an id carries that id. -/
theorem findItemIn_id : ∀ (x : Str) (l : List HItem) (r : HItem),
    findItemIn x l = some r → r.itemId = x
  | x, [], r, h => by simp [findItemIn] at h
  | x, c :: cs, r, h => by
    unfold findItemIn at h
    split at h
    · rename_i r2 hfc
      cases h
      exact findItemNode_id x c _ hfc
    · rename_i hfc
      exact findItemIn_id x cs r h

end

/-- The second capture group produced by the tail grammar is non-empty. -/
theorem tryAngleTail_ne_nil (rest b : Str) (h : tryAngleTail rest = some b) :
    b ≠ [] := by
  unfold tryAngleTail at h
  split at h
  · split at h
    · split at h
      · rename_i hcond
        cases h
        exact (str_not_isEmpty_iff _).mp (Bool.and_elim_left hcond)
      · cases h
    · cases h
  · cases h

/-- Both capture groups of the bracketed-identity regex are non-empty. -/
theorem findAngleMatch_ne_nil : ∀ (acc s g1 g2 : Str),
    findAngleMatch acc s = some (g1, g2) → g1 ≠ [] ∧ g2 ≠ []
  | acc, [], g1, g2, h => by simp [findAngleMatch] at h
  | acc, c :: rest, g1, g2, h => by
    unfold findAngleMatch at h
    by_cases hc : jsDotChar c = true
    · rw [if_pos hc] at h
      split at h
      · rename_i b ht
        cases h
        exact ⟨by simp, tryAngleTail_ne_nil rest _ ht⟩
      · rename_i ht
        exact findAngleMatch_ne_nil (c :: acc) rest g1 g2 h
    · rw [if_neg hc] at h
      cases h

/-- The first component of the split on a character is the longest prefix
free of that character. -/
theorem headI_splitOn_eq_takeWhile (c : Char) : ∀ (s : Str),
    (s.splitOn c).headI = s.takeWhile (fun d => !(d == c))
  | [] => by simp [List.splitOn]
  | d :: s => by
    simp only [List.splitOn, List.splitOnP_cons, List.takeWhile]
    by_cases hdc : (d == c) = true
    · simp [hdc]
    · rw [if_neg hdc]
      obtain ⟨h0, t, heq⟩ := List.exists_cons_of_ne_nil
        (List.splitOnP_ne_nil (· == c) s)
      have ih := headI_splitOn_eq_takeWhile c s
      simp only [List.splitOn] at ih
      have ih2 : h0 = List.takeWhile (fun d => !(d == c)) s := by
        rw [heq] at ih
        simpa using ih
      rw [heq]
      simp only [List.modifyHead, List.headI, hdc, Bool.not_false]
      rw [ih2]

/-- C1 counterexample: decoding the value a;ghost;b against the tree whose
only ids are a and b keeps the token ghost even though no item of the tree
carries that id, so the decode step does not drop tokens that are absent
from the tree. -/
theorem stale_token_retained :
    loadSelectedValues "a;ghost;b".toList ';' =
      ["a".toList, "ghost".toList, "b".toList] ∧
    treeHasId staleTree "ghost".toList = false ∧
    "ghost".toList ∈ loadSelectedValues "a;ghost;b".toList ';' := by
  decide

/-- C1 (amended): decoding splits the stored value on the configured
separator, trims each token and drops the empty ones, and keeps exactly
those tokens; it performs no membership check against the current tree,
so decoding a;ghost;b yields the three tokens a, ghost and b even though
ghost is not an id of the tree. -/
theorem decode_keeps_unknown_tokens :
    (∀ (cur : Str) (sep : Char) (v : Str),
       v ∈ loadSelectedValues cur sep ↔
         v ≠ [] ∧ ∃ t ∈ cur.splitOn sep, jsTrim t = v) ∧
    loadSelectedValues "a;ghost;b".toList ';' =
      ["a".toList, "ghost".toList, "b".toList] ∧
    treeHasId staleTree "ghost".toList = false := by
  refine ⟨?_, by decide, by decide⟩
  intro cur sep v
  constructor
  · intro hv
    rcases List.mem_filter.mp hv with ⟨hm, hp⟩
    rcases List.mem_map.mp hm with ⟨t, ht, rfl⟩
    exact ⟨(str_not_isEmpty_iff _).mp hp, t, ht, rfl⟩
  · rintro ⟨hne, t, ht, rfl⟩
    exact List.mem_filter.mpr
      ⟨List.mem_map.mpr ⟨t, ht, rfl⟩, (str_not_isEmpty_iff _).mpr hne⟩

/-- C2: with parent-select mode off, a toggle request for a container id
is a no-op, toggles preserve the absence of container ids in the selected
set, and the concrete scenario on the tree cat with leaves x and y runs as
specified: toggling cat leaves the selection empty, toggling x selects x,
and encoding then yields x. -/
theorem leaf_only_mode_protects_containers :
    (∀ (tree : List HItem) (sel : List Str) (x : Str),
       isContainerId tree x = true → toggleSelect false tree sel x = sel) ∧
    (∀ (tree : List HItem) (sel : List Str) (x : Str),
       (∀ y ∈ sel, isContainerId tree y = false) →
       ∀ y ∈ toggleSelect false tree sel x, isContainerId tree y = false) ∧
    toggleSelect false catTree [] "cat".toList = [] ∧
    toggleSelect false catTree [] "x".toList = ["x".toList] ∧
    encodeSelection (toggleSelect false catTree [] "x".toList) ';' =
      "x".toList := by
  refine ⟨?_, ?_, by decide, by decide, by decide⟩
  · intro tree sel x hc
    unfold isContainerId at hc
    unfold toggleSelect
    cases hfi : findItemIn x tree with
    | none => rfl
    | some item =>
      rw [hfi] at hc
      have hne : item.children.isEmpty = false := by
        cases hi : item.children.isEmpty <;> simp [hi] at hc ⊢
      simp [isSelectable, hne]
  · intro tree sel x hinv y hy
    unfold toggleSelect at hy
    revert hy
    cases hfi : findItemIn x tree with
    | none => exact fun hy => hinv y hy
    | some item =>
      intro hy
      dsimp only at hy
      by_cases hsel : isSelectable false item = true
      · rw [if_pos hsel] at hy
        unfold toggleSelection at hy
        by_cases hmem : item.itemId ∈ sel
        · rw [if_pos hmem] at hy
          exact hinv y (List.mem_of_mem_filter hy)
        · rw [if_neg hmem] at hy
          unfold setAdd at hy
          rw [if_neg hmem] at hy
          rcases List.mem_append.mp hy with h1 | h2
          · exact hinv y h1
          · have hyx : y = item.itemId := by simpa using h2
            subst hyx
            have hid : item.itemId = x := findItemIn_id x tree item hfi
            rw [hid]
            unfold isContainerId
            rw [hfi]
            have hleaf : item.children.isEmpty = true := by
              simpa [isSelectable] using hsel
            simp [hleaf]
      · rw [if_neg hsel] at hy
        exact hinv y hy

/-- C2 witness: on the scenario tree with one leaf already selected, a
toggle request for the container id cat is a no-op. -/
theorem leaf_only_mode_protects_containers_witness :
    toggleSelect false catTree ["x".toList] "cat".toList = ["x".toList] :=
  leaf_only_mode_protects_containers.1 catTree ["x".toList] "cat".toList
    (by decide)

/-- C3 counterexample: on a tree whose single leaf id contains the
separator character, the selection made of exactly that id encodes and
then decodes to two different tokens, so the round trip fails for a
selection drawn from the tree with the supported delimiter ';' . -/
theorem roundtrip_fails_on_separator_id :
    treeHasId sepIdTree "a;b".toList = true ∧
    loadSelectedValues (encodeSelection ["a;b".toList] ';') ';' ≠
      ["a;b".toList] ∧
    loadSelectedValues (encodeSelection ["a;b".toList] ';') ';' =
      ["a".toList, "b".toList] := by
  decide

/-- C3 (amended): the decode of the encode of a selection returns exactly
that selection for the supported delimiters, provided every selected id is
non-empty, is unchanged by trimming, and does not contain the delimiter
character; the empty selection encodes to the empty string. -/
theorem encode_decode_roundtrip (sel : List Str) (sep : Char)
    (tree : List HItem)
    (hsep : sep = ';' ∨ sep = ',')
    (hdrawn : ∀ v ∈ sel, treeHasId tree v = true)
    (hne : ∀ v ∈ sel, v ≠ [])
    (htrim : ∀ v ∈ sel, jsTrim v = v)
    (hnosep : ∀ v ∈ sel, sep ∉ v) :
    loadSelectedValues (encodeSelection sel sep) sep = sel ∧
    encodeSelection [] sep = [] := by
  constructor
  · rcases eq_or_ne sel [] with rfl | hselne
    · simp [encodeSelection, loadSelectedValues, List.intercalate, jsTrim]
    · unfold loadSelectedValues encodeSelection
      rw [List.splitOn_intercalate sel sep hnosep hselne]
      have hmap : sel.map jsTrim = sel := by
        conv_rhs => rw [← List.map_id sel]
        exact List.map_congr_left htrim
      rw [hmap]
      exact List.filter_eq_self.mpr
        (fun v hv => (str_not_isEmpty_iff v).mpr (hne v hv))
  · rfl

/-- C3 witness: the singleton selection x from the scenario tree survives
the round trip with the delimiter ';' . -/
theorem encode_decode_roundtrip_witness :
    loadSelectedValues (encodeSelection ["x".toList] ';') ';' =
      ["x".toList] ∧
    encodeSelection [] ';' = [] :=
  encode_decode_roundtrip ["x".toList] ';' catTree (Or.inl rfl)
    (by decide) (by decide) (by decide) (by decide)

/-- C4 counterexample: with the bound one and that one slot already
holding the same identity, a further add of that identity is rejected
with the selection unchanged, but the maximum-selections message is not
surfaced, because the duplicate branch returns first. -/
theorem capacity_duplicate_add_silent :
    (addIdentityIfNotExists [johnLower] (some 1) johnLower).result = false ∧
    (addIdentityIfNotExists [johnLower] (some 1) johnLower).selected =
      [johnLower] ∧
    (addIdentityIfNotExists [johnLower] (some 1)
      johnLower).capacityMessageShown = false := by
  decide

/-- C4 (amended): when the selection size equals the configured bound,
every further add returns false and leaves the selection unchanged; the
maximum-selections message is surfaced when the candidate is not already
a duplicate, while a duplicate candidate is rejected by the duplicate
branch without that message. -/
theorem capacity_add_rejected (sel : List Identity) (m : Int) (c : Identity)
    (hcap : (sel.length : Int) = m) :
    (addIdentityIfNotExists sel (some m) c).result = false ∧
    (addIdentityIfNotExists sel (some m) c).selected = sel ∧
    (isDuplicate sel c = false →
      (addIdentityIfNotExists sel (some m) c).capacityMessageShown = true) := by
  have hge : lengthGeMax sel.length (some m) = true := by
    simp [lengthGeMax, hcap]
  unfold addIdentityIfNotExists
  by_cases hd : isDuplicate sel c = true
  · simp [hd]
  · simp [hd, hge]

/-- C4 witness: at the bound one with a non-duplicate candidate, the add
is rejected, the selection is unchanged and the message is surfaced. -/
theorem capacity_add_rejected_witness :
    (addIdentityIfNotExists [johnLower] (some 1) dupCandidate).result =
      false ∧
    (addIdentityIfNotExists [johnLower] (some 1) dupCandidate).selected =
      [johnLower] ∧
    (isDuplicate [johnLower] dupCandidate = false →
      (addIdentityIfNotExists [johnLower] (some 1)
        dupCandidate).capacityMessageShown = true) :=
  capacity_add_rejected [johnLower] 1 dupCandidate (by decide)

/-- C5 counterexample: an existing entry and a candidate with different
ids, different unique names and the same display name are reported as
duplicates by the code, while the claimed three-tier test reports them as
distinct because both sides have a unique name available. -/
theorem duplicate_test_exact_displayname :
    isDuplicate [dupExisting] dupCandidate = true ∧
    claimIsDuplicate [dupExisting] dupCandidate = false ∧
    dupExisting.uniqueName ≠ [] ∧ dupCandidate.uniqueName ≠ [] := by
  decide

/-- C5 (amended): the duplicate test accepts a candidate as duplicate
exactly when some existing entry has an equal id, an equal unique name,
case-insensitively equal non-empty unique names, or an exactly equal
display name (regardless of unique name availability); and adding the
same email twice in different casing stores exactly one entity. -/
theorem duplicate_test_characterization :
    (∀ (sel : List Identity) (c : Identity),
       isDuplicate sel c = true ↔
         ∃ i ∈ sel,
           i.entityId = c.entityId ∨ i.uniqueName = c.uniqueName ∨
           (i.uniqueName ≠ [] ∧ c.uniqueName ≠ [] ∧
             jsToLower i.uniqueName = jsToLower c.uniqueName) ∨
           i.displayName = c.displayName) ∧
    (addIdentityIfNotExists [] (some 10) johnLower).selected =
      [johnLower] ∧
    (addIdentityIfNotExists [johnLower] (some 10) johnUpper).result =
      false ∧
    (addIdentityIfNotExists [johnLower] (some 10) johnUpper).selected =
      [johnLower] := by
  refine ⟨?_, by decide, by decide, by decide⟩
  intro sel c
  unfold isDuplicate
  rw [List.any_eq_true]
  constructor
  · rintro ⟨i, hi, hp⟩
    refine ⟨i, hi, ?_⟩
    simp only [isDuplicatePair, Bool.or_eq_true, Bool.and_eq_true,
      beq_iff_eq, str_not_isEmpty_iff] at hp
    rcases hp with ((h | h) | ⟨⟨h1, h2⟩, h3⟩) | ⟨h4, -⟩
    · exact Or.inl h
    · exact Or.inr (Or.inl h)
    · exact Or.inr (Or.inr (Or.inl ⟨h1, h2, h3⟩))
    · exact Or.inr (Or.inr (Or.inr h4))
  · rintro ⟨i, hi, hp⟩
    refine ⟨i, hi, ?_⟩
    simp only [isDuplicatePair, Bool.or_eq_true, Bool.and_eq_true,
      beq_iff_eq, str_not_isEmpty_iff]
    rcases hp with h | h | ⟨h1, h2, h3⟩ | h4
    · exact Or.inl (Or.inl (Or.inl h))
    · exact Or.inl (Or.inl (Or.inr h))
    · exact Or.inl (Or.inr ⟨⟨h1, h2⟩, h3⟩)
    · exact Or.inr ⟨h4, by rw [h4]⟩

/-- C6: the identity token decoder follows the three-tier grammar: a token
matched by the bracketed regex yields the raw second group as id with the
trimmed groups as displayName and uniqueName; an unmatched token holding
an at sign yields the prefix before the first at sign as displayName and
the whole token as id and uniqueName; any other token is used for all
three fields; every decoded identity built from a non-empty token has a
non-empty id. Three concrete tokens exercise the three tiers. -/
theorem identity_token_grammar (s : Str) (hs : s ≠ []) :
    (∀ g1 g2, matchAngles s = some (g1, g2) →
       parseIdentityString s =
         ⟨g2, jsTrim g1, jsTrim g2, "User".toList⟩) ∧
    (matchAngles s = none → s.contains '@' = true →
       parseIdentityString s =
         ⟨s, s.takeWhile (fun d => !(d == '@')), s, "User".toList⟩) ∧
    (matchAngles s = none → s.contains '@' = false →
       parseIdentityString s = ⟨s, s, s, "User".toList⟩) ∧
    (parseIdentityString s).entityId ≠ [] ∧
    parseIdentityString "John Doe <john@x.com>".toList =
      ⟨"john@x.com".toList, "John Doe".toList, "john@x.com".toList,
       "User".toList⟩ ∧
    parseIdentityString "john@x.com".toList =
      ⟨"john@x.com".toList, "john".toList, "john@x.com".toList,
       "User".toList⟩ ∧
    parseIdentityString "Just Name".toList =
      ⟨"Just Name".toList, "Just Name".toList, "Just Name".toList,
       "User".toList⟩ := by
  refine ⟨?_, ?_, ?_, ?_, by decide, by decide, by decide⟩
  · intro g1 g2 hm
    unfold parseIdentityString
    rw [hm]
  · intro hm ha
    have ha2 : '@' ∈ s := by simpa using ha
    unfold parseIdentityString
    rw [hm]
    simp [ha2, headI_splitOn_eq_takeWhile]
  · intro hm ha
    have ha2 : '@' ∉ s := by simpa using ha
    unfold parseIdentityString
    rw [hm]
    simp [ha2]
  · unfold parseIdentityString
    cases hm : matchAngles s with
    | some p =>
      obtain ⟨g1, g2⟩ := p
      have hne := (findAngleMatch_ne_nil [] s g1 g2 hm).2
      simpa using hne
    | none =>
      by_cases ha : '@' ∈ s <;> simp [ha, hs]

/-- C6 witness: the tier for a plain token applies to the non-empty token
a and yields a non-empty id. -/
theorem identity_token_grammar_witness :
    (parseIdentityString "a".toList).entityId ≠ [] :=
  (identity_token_grammar "a".toList (by decide)).2.2.2.1

/-- C7: the overlay chooses the above placement exactly when the space
above the trigger exceeds both the space below and fifty pixels, the
resulting maximum height always lies between the floor of eighty and the
ceiling of three hundred, and on the scenario rectangle with viewport
height six hundred the computation gives space below seventy-six, space
above four hundred ninety, the above placement, and maximum height three
hundred. -/
theorem overlay_placement_correct :
    (∀ (r : TriggerRect) (v : Int),
       useAbovePositioning r v = true ↔
         spaceAbove r > spaceBelow r v ∧ spaceAbove r > 50) ∧
    (∀ (r : TriggerRect) (v : Int),
       80 ≤ popupMaxHeight r v ∧ popupMaxHeight r v ≤ 300) ∧
    spaceBelow scenarioRect 600 = 76 ∧
    spaceAbove scenarioRect = 490 ∧
    useAbovePositioning scenarioRect 600 = true ∧
    popupMaxHeight scenarioRect 600 = 300 := by
  refine ⟨?_, ?_, by decide, by decide, by decide, by decide⟩
  · intro r v
    simp [useAbovePositioning]
  · intro r v
    unfold popupMaxHeight
    exact ⟨le_max_left _ _, max_le (by norm_num) (min_le_left _ _)⟩

/-- C8 counterexample: when the SDK handshake succeeds but the work item
form service acquisition rejects, the SDK-based control notifies load
failure and does not render, instead of reaching a renderable state and
notifying success. -/
theorem sdk_service_failure_notifies_failed :
    (initializeSdkControl ⟨true, false, true, true⟩).signal =
      LoadSignal.failed ∧
    (initializeSdkControl ⟨true, false, true, true⟩).rendered = false := by
  decide

/-- C8 (amended): the identity control always notifies load success from
its finally block whenever the VSS host object exists, for every
combination of step failures; the SDK-based cascading control renders and
notifies success for every configuration input, malformed tree JSON and
failing field reads included, provided the SDK handshake and the service
acquisition succeed; when one of those two throws it notifies load
failure instead. -/
theorem initialization_always_notifies (envI : IdentityEnv) (env : SdkEnv)
    (hvss : envI.vssPresent = true)
    (hinit : env.initOk = true) (hsvc : env.serviceOk = true) :
    (initializeIdentityControl envI).signal = some LoadSignal.succeeded ∧
    (initializeSdkControl env).signal = LoadSignal.succeeded ∧
    (initializeSdkControl env).rendered = true := by
  unfold initializeIdentityControl initializeSdkControl
  simp [hvss, hinit, hsvc]

/-- C8 witness: with the VSS host present but every later identity step
failing, and with malformed JSON and a failing field read on the SDK
control, both initializations still notify success and the SDK control
renders. -/
theorem initialization_always_notifies_witness :
    (initializeIdentityControl ⟨true, false, false, false⟩).signal =
      some LoadSignal.succeeded ∧
    (initializeSdkControl ⟨true, true, false, false⟩).signal =
      LoadSignal.succeeded ∧
    (initializeSdkControl ⟨true, true, false, false⟩).rendered = true :=
  initialization_always_notifies ⟨true, false, false, false⟩
    ⟨true, true, false, false⟩ rfl rfl rfl

/-- C9: the effective separator of the identity variant is always the
semicolon or the comma, and it is the comma exactly when the configured
input is the string comma or the comma character; every other input,
absent included, normalizes to the semicolon. -/
theorem separator_normalization :
    (∀ sepInput : Option String,
       effectiveSeparator sepInput = ";" ∨
       effectiveSeparator sepInput = ",") ∧
    (∀ sepInput : Option String,
       effectiveSeparator sepInput = "," ↔
         sepInput = some "comma" ∨ sepInput = some ",") := by
  constructor
  · intro si
    unfold effectiveSeparator
    by_cases h : (si == some "comma" || si == some ",") = true
    · rw [if_pos h]
      exact Or.inr rfl
    · rw [if_neg h]
      exact Or.inl rfl
  · intro si
    unfold effectiveSeparator
    by_cases h : (si == some "comma" || si == some ",") = true
    · rw [if_pos h]
      simp only [Bool.or_eq_true, beq_iff_eq] at h
      simpa using h
    · rw [if_neg h]
      simp only [Bool.or_eq_true, beq_iff_eq] at h
      push_neg at h
      constructor
      · intro habs
        exact absurd habs (by decide)
      · intro hor
        exact absurd hor (by simpa using h)

/-- C10: when the configured maximum does not parse to a number, the
parsed maximum is NaN and the length comparison against it is false for
every selection size, so no add is ever rejected for capacity and every
non-duplicate add grows the selection by one; the capacity message branch
is reachable only when the parsed maximum is an actual number. -/
theorem nan_disables_capacity_guard (input : Option String)
    (hnan : parsedMaxSelections input = none) :
    (∀ n : Nat, lengthGeMax n (parsedMaxSelections input) = false) ∧
    (∀ (sel : List Identity) (c : Identity),
       (addIdentityIfNotExists sel (parsedMaxSelections input)
         c).capacityMessageShown = false) ∧
    (∀ (sel : List Identity) (c : Identity), isDuplicate sel c = false →
       (addIdentityIfNotExists sel (parsedMaxSelections input) c).result =
         true ∧
       (addIdentityIfNotExists sel (parsedMaxSelections input)
         c).selected = sel ++ [c]) ∧
    (∀ (sel : List Identity) (m : MaxSelections) (c : Identity),
       (addIdentityIfNotExists sel m c).capacityMessageShown = true →
       m ≠ none) := by
  rw [hnan]
  refine ⟨fun n => rfl, ?_, ?_, ?_⟩
  · intro sel c
    unfold addIdentityIfNotExists
    by_cases hd : isDuplicate sel c = true <;> simp [hd, lengthGeMax]
  · intro sel c hd
    unfold addIdentityIfNotExists
    simp [hd, lengthGeMax]
  · intro sel m c hmsg
    intro hm
    subst hm
    unfold addIdentityIfNotExists at hmsg
    by_cases hd : isDuplicate sel c = true <;>
      simp [hd, lengthGeMax] at hmsg

/-- C10 witness: the configured input unlimited parses to NaN and the
length comparison against it is false at size five. -/
theorem nan_disables_capacity_guard_witness :
    lengthGeMax 5 (parsedMaxSelections (some "unlimited")) = false :=
  (nan_disables_capacity_guard (some "unlimited") (by decide)).1 5
